import Mathlib

/-!
Shallow embedding of the hackathon-recommendation scoring core
(`backend/gemini.py`, `backend/sbert.py`) and proofs about it.

Python strings are modelled by Lean `String`; Python `term in text`
(substring test) by infix testing on the character lists; Python sets of
strings by `Finset String`; Python exact float arithmetic by `ℚ` (and `ℝ`
where the source takes square roots).  Fallible code returns `Option` /
`Except`.  The external spaCy tagger and the SBERT sentence encoder are
parameters of the functions that call them.
-/

/-- Character-list prefix test (structural helper for the substring test). -/
def charsPre : List Char → List Char → Bool
  | [], _ => true
  | _ :: _, [] => false
  | a :: as, b :: bs => a == b && charsPre as bs

/-- Character-list contiguous-infix test. -/
def charsInfix (needle : List Char) : List Char → Bool
  | [] => charsPre needle []
  | c :: rest => charsPre needle (c :: rest) || charsInfix needle rest

/-- Python `needle in hay` on strings: contiguous-substring test. -/
def substrOf (needle hay : String) : Bool :=
  charsInfix needle.toList hay.toList

/-- Python `s.lower()`: lowercase every character. -/
def lowerStr (s : String) : String :=
  ⟨s.data.map Char.toLower⟩

/-- Python `s.strip()`: drop leading and trailing whitespace. -/
def stripStr (s : String) : String :=
  ⟨((s.data.dropWhile Char.isWhitespace).reverse.dropWhile Char.isWhitespace).reverse⟩

/-- Python `[k.lower().strip() for k in ks if k]`: drop falsy (empty)
strings, lowercase and strip the rest. -/
def clean_terms (ks : List String) : List String :=
  (ks.filter (fun k => k != "")).map (fun k => stripStr (lowerStr k))

/-- A raw hackathon record (a Python dict).  Fields read with
`hackathon[key]` (which raises `KeyError` when absent) are `Option`;
fields read with `hackathon.get(key, default)` carry their default. -/
structure Hackathon where
  title : Option String
  description : Option String
  full_text : Option String
  requirements : List String
  prize : Option String
  criteria : Option String
  deadline : Option String
  keywords : List String

namespace GeminiAPI

/-- The static technology taxonomy `self.tech_keywords` from
`GeminiAPI.__init__` (backend/gemini.py lines 30-46). -/
def tech_keywords : List (String × List String) :=
  [ ("python", ["python", "django", "flask", "fastapi", "pytorch", "tensorflow", "pandas", "numpy"]),
    ("javascript", ["javascript", "js", "node.js", "react", "vue", "angular", "typescript", "frontend"]),
    ("web", ["web", "frontend", "backend", "fullstack", "html", "css", "web development"]),
    ("mobile", ["mobile", "ios", "android", "react native", "flutter", "app development"]),
    ("ai", ["ai", "artificial intelligence", "machine learning", "ml", "deep learning", "nlp"]),
    ("data", ["data science", "data analysis", "big data", "data visualization", "analytics"]),
    ("cloud", ["aws", "azure", "gcp", "cloud computing", "serverless", "cloud"]),
    ("devops", ["devops", "docker", "kubernetes", "ci/cd", "jenkins", "deployment"]),
    ("blockchain", ["blockchain", "web3", "smart contracts", "cryptocurrency", "crypto"]),
    ("security", ["cybersecurity", "security", "encryption", "authentication", "privacy"]),
    ("game", ["game development", "unity", "unreal", "gaming", "game design"]),
    ("ar/vr", ["augmented reality", "virtual reality", "ar", "vr", "mixed reality"]),
    ("iot", ["internet of things", "iot", "embedded systems", "hardware"]),
    ("ui/ux", ["ui design", "ux design", "user interface", "user experience", "design"]),
    ("database", ["sql", "mongodb", "postgresql", "mysql", "database", "nosql"]) ]

/-- One iteration of the expansion loop body: the set of terms a single
user skill contributes to `expanded_skills` (the skill itself, plus all
terms of every category it matches by membership, name equality, or a
term being a substring of the skill). -/
def skill_expansion (skill : String) : Finset String :=
  tech_keywords.foldl
    (fun acc ct =>
      if skill ∈ ct.2 ∨ skill = ct.1 ∨ ct.2.any (fun term => substrOf term skill) then
        acc ∪ ct.2.toFinset
      else acc)
    {skill}

/-- The `expanded_skills` set built by `calculate_match_score` /
`calculate_evaluation_metrics` from the (already cleaned) user skills. -/
def expanded_skills (user_skills : List String) : Finset String :=
  user_skills.foldl (fun acc skill => acc ∪ skill_expansion skill) ∅

/-- Embeds `matches = set(hackathon_keywords) & expanded_skills` computed on the
cleaned inputs. -/
def match_set (hackathon_keywords user_skills : List String) : Finset String :=
  (clean_terms hackathon_keywords).toFinset ∩ expanded_skills (clean_terms user_skills)

/-- The per-matched-term bonus of `calculate_match_score`: +0.1 for an
advanced-skill substring, else +0.05 for a web/mobile substring, else 0. -/
def bonus_of (skill : String) : ℚ :=
  if ["ai", "machine learning", "cloud", "blockchain", "security"].any
      (fun term => substrOf term skill) then 1/10
  else if ["web", "mobile", "fullstack", "frontend", "backend"].any
      (fun term => substrOf term skill) then 1/20
  else 0

/-- Embeds `GeminiAPI.calculate_match_score` (backend/gemini.py lines 82-116). -/
def calculate_match_score (hackathon_keywords user_skills : List String) : ℚ :=
  if clean_terms hackathon_keywords = [] then 0
  else
    min 1 (((match_set hackathon_keywords user_skills).card : ℚ) /
        (max (clean_terms hackathon_keywords).length 1 : ℕ) +
      Finset.sum (match_set hackathon_keywords user_skills) bonus_of)

/-! `GeminiAPI.calculate_evaluation_metrics` (backend/gemini.py lines
118-171), split by dict key.  The counts are over the cleaned keyword
list and the expanded skill set. -/

/-- Embeds `true_positives = len(set(hackathon_keywords) & expanded_skills)`. -/
def true_positives (hackathon_keywords user_skills : List String) : ℕ :=
  ((clean_terms hackathon_keywords).toFinset ∩
    expanded_skills (clean_terms user_skills)).card

/-- Embeds `false_positives = len(set(hackathon_keywords) - expanded_skills)`. -/
def false_positives (hackathon_keywords user_skills : List String) : ℕ :=
  ((clean_terms hackathon_keywords).toFinset \
    expanded_skills (clean_terms user_skills)).card

/-- Embeds `false_negatives = len(expanded_skills - set(hackathon_keywords))`. -/
def false_negatives (hackathon_keywords user_skills : List String) : ℕ :=
  (expanded_skills (clean_terms user_skills) \
    (clean_terms hackathon_keywords).toFinset).card

/-- Embeds `precision = tp / (tp + fp) if (tp + fp) > 0 else 0`. -/
def precision (hackathon_keywords user_skills : List String) : ℚ :=
  if 0 < true_positives hackathon_keywords user_skills +
      false_positives hackathon_keywords user_skills then
    (true_positives hackathon_keywords user_skills : ℚ) /
      ((true_positives hackathon_keywords user_skills : ℚ) +
        (false_positives hackathon_keywords user_skills : ℚ))
  else 0

/-- Embeds `recall = tp / (tp + fn) if (tp + fn) > 0 else 0`. -/
def recall_score (hackathon_keywords user_skills : List String) : ℚ :=
  if 0 < true_positives hackathon_keywords user_skills +
      false_negatives hackathon_keywords user_skills then
    (true_positives hackathon_keywords user_skills : ℚ) /
      ((true_positives hackathon_keywords user_skills : ℚ) +
        (false_negatives hackathon_keywords user_skills : ℚ))
  else 0

/-- Embeds `f1_score = 2*(precision*recall)/(precision+recall) if (precision+recall) > 0 else 0`. -/
def f1_score (hackathon_keywords user_skills : List String) : ℚ :=
  if 0 < precision hackathon_keywords user_skills + recall_score hackathon_keywords user_skills then
    2 * (precision hackathon_keywords user_skills * recall_score hackathon_keywords user_skills) /
      (precision hackathon_keywords user_skills + recall_score hackathon_keywords user_skills)
  else 0

/-- Embeds `all_terms = list(set(hackathon_keywords + list(expanded_skills)))`,
as a finite set (only its membership and size are used). -/
def all_terms (hackathon_keywords user_skills : List String) : Finset String :=
  (clean_terms hackathon_keywords).toFinset ∪ expanded_skills (clean_terms user_skills)

/-- Embeds `dot_product = sum(a * b for a, b in zip(hackathon_vector, skills_vector))`
over the binary presence vectors indexed by `all_terms`. -/
def dot_product (hackathon_keywords user_skills : List String) : ℕ :=
  Finset.sum (all_terms hackathon_keywords user_skills) fun term =>
    (if term ∈ clean_terms hackathon_keywords then 1 else 0) *
      (if term ∈ expanded_skills (clean_terms user_skills) then 1 else 0)

/-- Embeds `hackathon_magnitude = sum(a ** 2 for a in hackathon_vector) ** 0.5`. -/
noncomputable def hackathon_magnitude (hackathon_keywords user_skills : List String) : ℝ :=
  Real.sqrt (Finset.sum (all_terms hackathon_keywords user_skills) fun term =>
    (if term ∈ clean_terms hackathon_keywords then (1 : ℝ) else 0) ^ 2)

/-- Embeds `skills_magnitude = sum(b ** 2 for b in skills_vector) ** 0.5`. -/
noncomputable def skills_magnitude (hackathon_keywords user_skills : List String) : ℝ :=
  Real.sqrt (Finset.sum (all_terms hackathon_keywords user_skills) fun term =>
    (if term ∈ expanded_skills (clean_terms user_skills) then (1 : ℝ) else 0) ^ 2)

/-- Embeds `cosine_similarity = dot / (hm * sm) if (hm * sm) > 0 else 0`. -/
noncomputable def cosine_similarity (hackathon_keywords user_skills : List String) : ℝ :=
  if 0 < hackathon_magnitude hackathon_keywords user_skills *
      skills_magnitude hackathon_keywords user_skills then
    (dot_product hackathon_keywords user_skills : ℝ) /
      (hackathon_magnitude hackathon_keywords user_skills *
        skills_magnitude hackathon_keywords user_skills)
  else 0

/-- Embeds `total_terms = len(all_terms)`. -/
def total_terms (hackathon_keywords user_skills : List String) : ℕ :=
  (all_terms hackathon_keywords user_skills).card

/-- Embeds `accuracy = (tp + (total_terms - (fp + fn))) / total_terms if total_terms > 0 else 0`
(Python integers subtract exactly, so the subtraction is on `ℚ`). -/
def accuracy (hackathon_keywords user_skills : List String) : ℚ :=
  if 0 < total_terms hackathon_keywords user_skills then
    ((true_positives hackathon_keywords user_skills : ℚ) +
        ((total_terms hackathon_keywords user_skills : ℚ) -
          ((false_positives hackathon_keywords user_skills : ℚ) +
            (false_negatives hackathon_keywords user_skills : ℚ)))) /
      (total_terms hackathon_keywords user_skills : ℚ)
  else 0

/-- The dict returned by `calculate_evaluation_metrics`. -/
structure EvalMetrics where
  precision : ℚ
  recall_score : ℚ
  f1_score : ℚ
  cosine_similarity : ℝ
  accuracy : ℚ

/-- Embeds `GeminiAPI.calculate_evaluation_metrics` (backend/gemini.py lines 118-171). -/
noncomputable def calculate_evaluation_metrics
    (hackathon_keywords user_skills : List String) : EvalMetrics :=
  { precision := precision hackathon_keywords user_skills
    recall_score := recall_score hackathon_keywords user_skills
    f1_score := f1_score hackathon_keywords user_skills
    cosine_similarity := cosine_similarity hackathon_keywords user_skills
    accuracy := accuracy hackathon_keywords user_skills }

/-- Output of the external spaCy tagging pass on a text: the noun-chunk
texts and the (text, part-of-speech) token pairs.  The tagger itself is a
parameter: `none` models the tagging pass raising. -/
structure TagDoc where
  noun_chunks : List String
  tokens : List (String × String)

/-- Embeds `GeminiAPI.extract_keywords` (backend/gemini.py lines 48-80).  The
source has no exception handling here, so a tagger failure propagates. -/
def extract_keywords (tagger : String → Option TagDoc) (text : String) :
    Option (List String) :=
  match tagger (lowerStr text) with
  | none => none
  | some doc =>
    some ((doc.noun_chunks ++
        (doc.tokens.filter fun t =>
          (t.2 == "NOUN" || t.2 == "PROPN") && decide (2 < t.1.length)).map Prod.fst ++
        tech_keywords.foldl (fun acc ct =>
          match ct.2.find? (fun term => substrOf term (lowerStr text)) with
          | some term => acc ++ [ct.1, term]
          | none => acc) []).dedup.filter fun k => decide (2 < k.length))

/-- One entry of the list returned by `GeminiAPI.analyze_hackathons`. -/
structure Recommendation where
  title : String
  description : String
  requirements : List String
  prize : String
  criteria : String
  deadline : String
  keywords : List String
  match_score : ℚ
  evaluation_metrics : EvalMetrics

/-- The body of the per-hackathon `try` block of
`GeminiAPI.analyze_hackathons` (backend/gemini.py lines 177-211):
`none` models both an exception (missing dict key, tagger failure —
caught by the `except` and skipped) and a score of zero (filtered out by
`if match_score > 0`). -/
noncomputable def process_hackathon (tagger : String → Option TagDoc)
    (user_skills : List String) (h : Hackathon) : Option Recommendation :=
  match h.full_text with
  | none => none
  | some ft =>
    match extract_keywords tagger ft with
    | none => none
    | some extracted =>
      match h.requirements.mapM (fun req => extract_keywords tagger req) with
      | none => none
      | some req_kws =>
        let all_keywords := (h.keywords ++ extracted ++ req_kws.flatten).dedup
        if 0 < calculate_match_score all_keywords user_skills then
          match h.title, h.description with
          | some t, some d =>
            some { title := t, description := d,
                   requirements := h.requirements,
                   prize := h.prize.getD "Not specified",
                   criteria := h.criteria.getD "",
                   deadline := h.deadline.getD "No deadline specified",
                   keywords := all_keywords,
                   match_score := calculate_match_score all_keywords user_skills,
                   evaluation_metrics := calculate_evaluation_metrics all_keywords user_skills }
          | _, _ => none
        else none

/-- Embeds `GeminiAPI.analyze_hackathons` (backend/gemini.py lines 173-218):
process every hackathon, skipping failures and non-matches; stable-sort
descending by match score (Python `list.sort` with `reverse=True` is
stable); return the first 5. -/
noncomputable def analyze_hackathons (tagger : String → Option TagDoc)
    (hackathons : List Hackathon) (user_skills : List String) : List Recommendation :=
  ((hackathons.filterMap (process_hackathon tagger user_skills)).mergeSort
    fun a b => decide (b.match_score ≤ a.match_score)).take 5

end GeminiAPI

namespace sklearn

/-! The four metric functions imported from scikit-learn by
backend/sbert.py are external collaborators; they are modelled from
their documented definitions on binary (0/1) label lists, with
`zero_division=0`. -/

/-- Embeds `sklearn.metrics.accuracy_score`: fraction of positions where the
labels agree. -/
def accuracy_score (y_true y_pred : List ℕ) : ℚ :=
  (((y_true.zip y_pred).filter fun p => p.1 == p.2).length : ℚ) / (y_true.length : ℚ)

/-- Positions labelled 1 by both. -/
def tp_count (y_true y_pred : List ℕ) : ℕ :=
  ((y_true.zip y_pred).filter fun p => p.1 == 1 && p.2 == 1).length

/-- Positions labelled 0 in `y_true` but 1 in `y_pred`. -/
def fp_count (y_true y_pred : List ℕ) : ℕ :=
  ((y_true.zip y_pred).filter fun p => p.1 == 0 && p.2 == 1).length

/-- Positions labelled 1 in `y_true` but 0 in `y_pred`. -/
def fn_count (y_true y_pred : List ℕ) : ℕ :=
  ((y_true.zip y_pred).filter fun p => p.1 == 1 && p.2 == 0).length

/-- Embeds `sklearn.metrics.precision_score` with `zero_division=0`. -/
def precision_score (y_true y_pred : List ℕ) : ℚ :=
  if 0 < tp_count y_true y_pred + fp_count y_true y_pred then
    (tp_count y_true y_pred : ℚ) / ((tp_count y_true y_pred : ℚ) + (fp_count y_true y_pred : ℚ))
  else 0

/-- Embeds `sklearn.metrics.recall_score` with `zero_division=0`. -/
def recall_score (y_true y_pred : List ℕ) : ℚ :=
  if 0 < tp_count y_true y_pred + fn_count y_true y_pred then
    (tp_count y_true y_pred : ℚ) / ((tp_count y_true y_pred : ℚ) + (fn_count y_true y_pred : ℚ))
  else 0

/-- Embeds `sklearn.metrics.f1_score` with `zero_division=0` (harmonic mean of
precision and recall, 0 when both are 0). -/
def f1_score (y_true y_pred : List ℕ) : ℚ :=
  if 0 < precision_score y_true y_pred + recall_score y_true y_pred then
    2 * (precision_score y_true y_pred * recall_score y_true y_pred) /
      (precision_score y_true y_pred + recall_score y_true y_pred)
  else 0

end sklearn

namespace SBERTModel

/-- Embeds `SBERTModel.sanitize_float` (backend/sbert.py lines 18-21) on an
exact real input: in the exact model the input is always a finite
number, so only the rounding branch `float(round(val, 4))` remains
(Python rounds half-to-even; the exact model rounds to the nearest
multiple of 1/10000, which no claim distinguishes). -/
noncomputable def sanitize_float (val : ℝ) : ℚ :=
  (round (val * 10000) : ℤ) / 10000

/-- Embeds `sanitize_float` specialised to inputs that are already exact
rationals (every application after the similarity has been rounded). -/
def sanitize_rat (val : ℚ) : ℚ :=
  (round (val * 10000) : ℤ) / 10000

/-- Python `round(x, 2)` in the exact model. -/
def round2 (val : ℚ) : ℚ :=
  (round (val * 100) : ℤ) / 100

/-- Embeds `np.dot` on (already materialised) embedding vectors. -/
def np_dot (u v : List ℝ) : ℝ :=
  ((u.zip v).map fun p => p.1 * p.2).sum

/-- Embeds `np.linalg.norm`: Euclidean norm. -/
noncomputable def np_norm (v : List ℝ) : ℝ :=
  Real.sqrt ((v.map fun x => x ^ 2).sum)

/-- The per-hackathon similarity computation of
`SBERTModel.analyze_hackathons` (backend/sbert.py lines 38-43):
`0.0` when the norm product is not positive, else the cosine; then
sanitized. -/
noncomputable def similarity_of (u v : List ℝ) : ℚ :=
  if 0 < np_norm u * np_norm v then
    sanitize_float (np_dot u v / (np_norm u * np_norm v))
  else sanitize_float 0

/-- The similarity list built by the first loop of
`SBERTModel.analyze_hackathons` (backend/sbert.py lines 29-44); the
sentence encoder `encode` is an external parameter (it returns a zero
vector rather than raising, per `encode_text`). -/
noncomputable def similarities (encode : String → List ℝ)
    (hackathons : List Hackathon) (user_skills : List String) : List ℚ :=
  hackathons.map fun h =>
    similarity_of (encode (String.intercalate ", " user_skills))
      (encode (h.description.getD ""))

/-- The `evaluation_metrics` dict attached to every SBERT result. -/
structure SbertMetrics where
  precision : ℚ
  recall_score : ℚ
  f1_score : ℚ
  cosine_similarity : ℚ
  accuracy : ℚ

/-- One entry of the list returned by `SBERTModel.analyze_hackathons`. -/
structure SbertResult where
  title : String
  similarity : ℚ
  match_score : ℚ
  description : String
  prize : String
  deadline : String
  keywords : List String
  requirements : List String
  criteria : String
  evaluation_metrics : SbertMetrics

/-- Embeds `true_labels = [1 if i < len(similarities) // 2 else 0 ...]`
(backend/sbert.py line 49): synthetic half-split relevance labels. -/
def true_labels_of (sims : List ℚ) : List ℕ :=
  (List.range sims.length).map fun i => if i < sims.length / 2 then 1 else 0

/-- Embeds `threshold = np.mean([s for s in similarities if np.isfinite(s)])`
(backend/sbert.py line 50); in the exact model every similarity is
finite, so this is the plain mean. -/
def threshold_of (sims : List ℚ) : ℚ :=
  sims.sum / (sims.length : ℚ)

/-- Embeds `predicted_labels = [1 if sim > threshold else 0 ...]`
(backend/sbert.py line 51). -/
def predicted_labels_of (sims : List ℚ) : List ℕ :=
  sims.map fun s => if threshold_of sims < s then 1 else 0

/-- The batch accuracy (backend/sbert.py line 53). -/
def batch_accuracy (sims : List ℚ) : ℚ :=
  sanitize_rat (sklearn.accuracy_score (true_labels_of sims) (predicted_labels_of sims))

/-- The batch precision (backend/sbert.py line 54). -/
def batch_precision (sims : List ℚ) : ℚ :=
  sanitize_rat (sklearn.precision_score (true_labels_of sims) (predicted_labels_of sims))

/-- The batch recall (backend/sbert.py line 55). -/
def batch_recall (sims : List ℚ) : ℚ :=
  sanitize_rat (sklearn.recall_score (true_labels_of sims) (predicted_labels_of sims))

/-- The batch F1 score (backend/sbert.py line 56). -/
def batch_f1 (sims : List ℚ) : ℚ :=
  sanitize_rat (sklearn.f1_score (true_labels_of sims) (predicted_labels_of sims))

/-- The dict appended for one hackathon by the result loop of
`SBERTModel.analyze_hackathons` (backend/sbert.py lines 58-84). -/
def result_of (sims : List ℚ) (hsp : Hackathon × ℚ) : SbertResult :=
  { title := hsp.1.title.getD ""
    similarity := sanitize_rat hsp.2
    match_score := sanitize_rat (round2 (hsp.2 * 100))
    description := hsp.1.description.getD ""
    prize := hsp.1.prize.getD ""
    deadline := hsp.1.deadline.getD ""
    keywords := hsp.1.keywords
    requirements := hsp.1.requirements
    criteria := hsp.1.criteria.getD ""
    evaluation_metrics :=
      { precision := sanitize_rat (batch_precision sims)
        recall_score := sanitize_rat (batch_recall sims)
        f1_score := sanitize_rat (batch_f1 sims)
        cosine_similarity := sanitize_rat hsp.2
        accuracy := sanitize_rat (batch_accuracy sims) } }

/-- The final deep-sanitization pass (backend/sbert.py lines 99-102):
re-sanitize the numeric top-level fields of a result. -/
def deep_sanitize (r : SbertResult) : SbertResult :=
  { r with similarity := sanitize_rat r.similarity,
           match_score := sanitize_rat r.match_score }

/-- The batch part of `SBERTModel.analyze_hackathons`
(backend/sbert.py lines 46-116), as a function of the already-computed
similarity list: raise on an empty list; compute the four batch metrics
once from the synthetic half-split labels; build one result per
hackathon; stable-sort descending by similarity (Python `list.sort`
with `reverse=True` is stable); deep-sanitize. -/
def analyze_core (hackathons : List Hackathon) (sims : List ℚ) :
    Except String (List SbertResult) :=
  if sims = [] then Except.error "No valid similarities could be computed."
  else
    Except.ok ((((hackathons.zip sims).map (result_of sims)).mergeSort
      fun a b => decide (b.similarity ≤ a.similarity)).map deep_sanitize)

/-- Embeds `SBERTModel.analyze_hackathons` (backend/sbert.py lines 23-120).
The outer `except` re-raises, so batch-level failure surfaces as
`Except.error`.  Note: the result list is **not** truncated. -/
noncomputable def analyze_hackathons (encode : String → List ℝ)
    (hackathons : List Hackathon) (user_skills : List String) :
    Except String (List SbertResult) :=
  analyze_core hackathons (similarities encode hackathons user_skills)

end SBERTModel

/-! Helper lemmas about the lexical matcher. -/

namespace GeminiAPI

lemma bonus_of_nonneg (s : String) : 0 ≤ bonus_of s := by
  unfold bonus_of
  split
  · norm_num
  split
  · norm_num
  · norm_num

lemma clean_terms_append (l1 l2 : List String) :
    clean_terms (l1 ++ l2) = clean_terms l1 ++ clean_terms l2 := by
  simp [clean_terms, List.filter_append]

lemma foldl_union_acc (f : String → Finset String) :
    ∀ (l : List String) (acc : Finset String),
      l.foldl (fun a s => a ∪ f s) acc = acc ∪ l.foldl (fun a s => a ∪ f s) ∅
  | [], acc => by simp
  | s :: l, acc => by
    simp only [List.foldl_cons]
    rw [foldl_union_acc f l (acc ∪ f s), foldl_union_acc f l (∅ ∪ f s)]
    simp [Finset.union_assoc]

lemma expanded_skills_append (l1 l2 : List String) :
    expanded_skills (l1 ++ l2) = expanded_skills l1 ∪ expanded_skills l2 := by
  unfold expanded_skills
  rw [List.foldl_append,
    foldl_union_acc (fun s => skill_expansion s) l2 (l1.foldl (fun a s => a ∪ skill_expansion s) ∅)]

lemma match_set_subset_append (K S : List String) (t : String) :
    match_set K S ⊆ match_set K (S ++ [t]) := by
  unfold match_set
  refine Finset.inter_subset_inter (le_refl _) ?_
  rw [clean_terms_append, expanded_skills_append]
  exact Finset.subset_union_left

lemma match_score_nonneg (K S : List String) : 0 ≤ calculate_match_score K S := by
  unfold calculate_match_score
  split
  · norm_num
  · exact le_min (by norm_num)
      (add_nonneg (div_nonneg (Nat.cast_nonneg _) (Nat.cast_nonneg _))
        (Finset.sum_nonneg fun i _ => bonus_of_nonneg i))

lemma match_score_le_one (K S : List String) : calculate_match_score K S ≤ 1 := by
  unfold calculate_match_score
  split
  · norm_num
  · exact min_le_left _ _

lemma match_set_nil_skills (K : List String) : match_set K [] = ∅ := by
  unfold match_set expanded_skills
  simp [clean_terms]

end GeminiAPI

/-- C2: for every hackathon keyword list `K` and user skill list `S`, the
lexical match score is in `[0,1]`; with an empty keyword list the score
is exactly `0`; with an empty skill list the match set is empty (the
embedded computation is total, so no exception arises). -/
theorem C2_match_score_bounds (K S : List String) :
    (0 ≤ GeminiAPI.calculate_match_score K S ∧ GeminiAPI.calculate_match_score K S ≤ 1) ∧
    GeminiAPI.calculate_match_score [] S = 0 ∧
    GeminiAPI.match_set K [] = ∅ :=
  ⟨⟨GeminiAPI.match_score_nonneg K S, GeminiAPI.match_score_le_one K S⟩,
    rfl, GeminiAPI.match_set_nil_skills K⟩

/-- C7: appending a skill term `t` that occurs in the hackathon keyword
list `K` to the user skills never decreases the match score. -/
theorem C7_monotone (K S : List String) (t : String) (ht : t ∈ K) :
    GeminiAPI.calculate_match_score K S ≤ GeminiAPI.calculate_match_score K (S ++ [t]) := by
  unfold GeminiAPI.calculate_match_score
  by_cases hc : clean_terms K = []
  · simp [hc]
  · rw [if_neg hc, if_neg hc]
    refine min_le_min (le_refl 1) (add_le_add ?_ ?_)
    · exact div_le_div_of_nonneg_right
        (Nat.cast_le.mpr (Finset.card_le_card (GeminiAPI.match_set_subset_append K S t)))
        (Nat.cast_nonneg _)
    · exact Finset.sum_le_sum_of_subset_of_nonneg
        (GeminiAPI.match_set_subset_append K S t) (fun i _ _ => GeminiAPI.bonus_of_nonneg i)

namespace GeminiAPI

lemma tp_add_fp (K S : List String) :
    true_positives K S + false_positives K S = (clean_terms K).toFinset.card := by
  unfold true_positives false_positives
  exact Finset.card_inter_add_card_sdiff _ _

lemma tp_add_fn (K S : List String) :
    true_positives K S + false_negatives K S =
      (expanded_skills (clean_terms S)).card := by
  unfold true_positives false_negatives
  rw [Finset.inter_comm]
  exact Finset.card_inter_add_card_sdiff _ _

lemma total_terms_eq (K S : List String) :
    total_terms K S = true_positives K S + false_positives K S + false_negatives K S := by
  have h1 := Finset.card_union_add_card_inter
    (clean_terms K).toFinset (expanded_skills (clean_terms S))
  have h2 := tp_add_fp K S
  have h3 := tp_add_fn K S
  unfold total_terms all_terms
  unfold true_positives false_positives false_negatives at *
  omega

lemma precision_nonneg (K S : List String) : 0 ≤ precision K S := by
  unfold precision
  split
  · positivity
  · norm_num

lemma precision_le_one (K S : List String) : precision K S ≤ 1 := by
  unfold precision
  split
  case isTrue h =>
    rw [div_le_one (by exact_mod_cast h)]
    exact_mod_cast Nat.le_add_right _ _
  case isFalse => norm_num

lemma recall_nonneg (K S : List String) : 0 ≤ recall_score K S := by
  unfold recall_score
  split
  · positivity
  · norm_num

lemma recall_le_one (K S : List String) : recall_score K S ≤ 1 := by
  unfold recall_score
  split
  case isTrue h =>
    rw [div_le_one (by exact_mod_cast h)]
    exact_mod_cast Nat.le_add_right _ _
  case isFalse => norm_num

lemma f1_nonneg (K S : List String) : 0 ≤ f1_score K S := by
  unfold f1_score
  split
  case isTrue h =>
    have hp := precision_nonneg K S
    have hr := recall_nonneg K S
    positivity
  case isFalse => norm_num

lemma f1_le_one (K S : List String) : f1_score K S ≤ 1 := by
  unfold f1_score
  split
  case isTrue h =>
    have hp0 := precision_nonneg K S
    have hp1 := precision_le_one K S
    have hr0 := recall_nonneg K S
    have hr1 := recall_le_one K S
    rw [div_le_one h]
    nlinarith
  case isFalse => norm_num

lemma dot_product_eq_tp (K S : List String) :
    dot_product K S = true_positives K S := by
  unfold dot_product true_positives all_terms
  rw [show (clean_terms K).toFinset ∩ expanded_skills (clean_terms S) =
    ((clean_terms K).toFinset ∪ expanded_skills (clean_terms S)).filter
      (fun t => t ∈ (clean_terms K).toFinset ∩ expanded_skills (clean_terms S)) from by
    ext t
    simp only [Finset.mem_filter, Finset.mem_inter, Finset.mem_union]
    tauto]
  rw [Finset.card_filter]
  refine Finset.sum_congr rfl fun t _ => ?_
  by_cases hA : t ∈ clean_terms K <;> by_cases hB : t ∈ expanded_skills (clean_terms S) <;>
    simp [hA, hB, List.mem_toFinset]

lemma hackathon_magnitude_eq (K S : List String) :
    hackathon_magnitude K S = Real.sqrt ((clean_terms K).toFinset.card : ℝ) := by
  unfold hackathon_magnitude
  congr 1
  rw [show (clean_terms K).toFinset =
    ((clean_terms K).toFinset ∪ expanded_skills (clean_terms S)).filter
      (fun t => t ∈ (clean_terms K).toFinset) from by
    ext t
    simp only [Finset.mem_filter, Finset.mem_union]
    tauto]
  rw [Finset.card_filter]
  push_cast
  refine Finset.sum_congr rfl fun t _ => ?_
  by_cases hA : t ∈ clean_terms K <;> simp [hA, List.mem_toFinset]

lemma skills_magnitude_eq (K S : List String) :
    skills_magnitude K S = Real.sqrt ((expanded_skills (clean_terms S)).card : ℝ) := by
  unfold skills_magnitude
  congr 1
  rw [show expanded_skills (clean_terms S) =
    ((clean_terms K).toFinset ∪ expanded_skills (clean_terms S)).filter
      (fun t => t ∈ expanded_skills (clean_terms S)) from by
    ext t
    simp only [Finset.mem_filter, Finset.mem_union]
    tauto]
  rw [Finset.card_filter]
  push_cast
  refine Finset.sum_congr rfl fun t _ => ?_
  by_cases hB : t ∈ expanded_skills (clean_terms S) <;> simp [hB]

lemma cosine_nonneg (K S : List String) : 0 ≤ cosine_similarity K S := by
  unfold cosine_similarity
  split
  case isTrue h => exact div_nonneg (Nat.cast_nonneg _) (le_of_lt h)
  case isFalse => norm_num

lemma cosine_le_one (K S : List String) : cosine_similarity K S ≤ 1 := by
  unfold cosine_similarity
  split
  case isTrue h =>
    rw [div_le_one h, hackathon_magnitude_eq, skills_magnitude_eq,
      ← Real.sqrt_mul (Nat.cast_nonneg _), dot_product_eq_tp]
    apply Real.le_sqrt_of_sq_le
    have h1 : true_positives K S ≤ (clean_terms K).toFinset.card :=
      Finset.card_le_card Finset.inter_subset_left
    have h2 : true_positives K S ≤ (expanded_skills (clean_terms S)).card :=
      Finset.card_le_card Finset.inter_subset_right
    have hN : true_positives K S * true_positives K S ≤
        (clean_terms K).toFinset.card * (expanded_skills (clean_terms S)).card :=
      Nat.mul_le_mul h1 h2
    rw [pow_two]
    exact_mod_cast hN
  case isFalse => norm_num

lemma accuracy_eq (K S : List String) :
    accuracy K S =
      if 0 < total_terms K S then
        2 * (true_positives K S : ℚ) / (total_terms K S : ℚ)
      else 0 := by
  unfold accuracy
  split
  · have ht := total_terms_eq K S
    rw [ht]
    push_cast
    ring
  · rfl

lemma accuracy_nonneg (K S : List String) : 0 ≤ accuracy K S := by
  rw [accuracy_eq]
  split
  · positivity
  · norm_num

lemma accuracy_le_two (K S : List String) : accuracy K S ≤ 2 := by
  rw [accuracy_eq]
  split
  case isTrue h =>
    rw [div_le_iff₀ (by exact_mod_cast h)]
    have htp : true_positives K S ≤ total_terms K S := by
      rw [total_terms_eq]
      omega
    have : (true_positives K S : ℚ) ≤ (total_terms K S : ℚ) := by exact_mod_cast htp
    nlinarith
  case isFalse => norm_num

end GeminiAPI

/-- C1 counterexample: for `K = ["foo"]`, `S = ["foo"]` (a skill matching
no taxonomy category), the code computes
`accuracy = (1 + (1 - (0 + 0))) / 1 = 2`, outside `[0,1]`. -/
theorem C1_counterexample :
    (GeminiAPI.calculate_evaluation_metrics ["foo"] ["foo"]).accuracy = 2 ∧
    ¬ (GeminiAPI.calculate_evaluation_metrics ["foo"] ["foo"]).accuracy ≤ 1 := by
  have h : (GeminiAPI.calculate_evaluation_metrics ["foo"] ["foo"]).accuracy =
      GeminiAPI.accuracy ["foo"] ["foo"] := rfl
  have h1 : GeminiAPI.true_positives ["foo"] ["foo"] = 1 := by decide
  have h2 : GeminiAPI.false_positives ["foo"] ["foo"] = 0 := by decide
  have h3 : GeminiAPI.false_negatives ["foo"] ["foo"] = 0 := by decide
  have h4 : GeminiAPI.total_terms ["foo"] ["foo"] = 1 := by decide
  have hacc : GeminiAPI.accuracy ["foo"] ["foo"] = 2 := by
    unfold GeminiAPI.accuracy
    rw [if_pos (by rw [h4]; norm_num), h1, h2, h3, h4]
    norm_num
  refine ⟨by rw [h, hacc], by rw [h, hacc]; norm_num⟩

/-- C1 (amended): precision, recall, f1 and cosine similarity returned by
`calculate_evaluation_metrics` are always in `[0,1]` and well defined
(the exact model has no NaN or infinity: every division is guarded), but
accuracy — which equals `2·tp/total_terms` — is only bounded by `[0,2]`
and does exceed 1 (see the counterexample). -/
theorem C1_metric_bounds (K S : List String) :
    (0 ≤ (GeminiAPI.calculate_evaluation_metrics K S).precision ∧
      (GeminiAPI.calculate_evaluation_metrics K S).precision ≤ 1) ∧
    (0 ≤ (GeminiAPI.calculate_evaluation_metrics K S).recall_score ∧
      (GeminiAPI.calculate_evaluation_metrics K S).recall_score ≤ 1) ∧
    (0 ≤ (GeminiAPI.calculate_evaluation_metrics K S).f1_score ∧
      (GeminiAPI.calculate_evaluation_metrics K S).f1_score ≤ 1) ∧
    (0 ≤ (GeminiAPI.calculate_evaluation_metrics K S).cosine_similarity ∧
      (GeminiAPI.calculate_evaluation_metrics K S).cosine_similarity ≤ 1) ∧
    (0 ≤ (GeminiAPI.calculate_evaluation_metrics K S).accuracy ∧
      (GeminiAPI.calculate_evaluation_metrics K S).accuracy ≤ 2) :=
  ⟨⟨GeminiAPI.precision_nonneg K S, GeminiAPI.precision_le_one K S⟩,
    ⟨GeminiAPI.recall_nonneg K S, GeminiAPI.recall_le_one K S⟩,
    ⟨GeminiAPI.f1_nonneg K S, GeminiAPI.f1_le_one K S⟩,
    ⟨GeminiAPI.cosine_nonneg K S, GeminiAPI.cosine_le_one K S⟩,
    ⟨GeminiAPI.accuracy_nonneg K S, GeminiAPI.accuracy_le_two K S⟩⟩

/-- The score of the C5 scenario on the code: `"machine learning"` is an
ai-category term, so all ai terms — `"nlp"` included — enter the expanded
skills; both hackathon keywords match, so the base score is `2/2 = 1`,
the `"ai"` bonus adds `0.1`, and the clamp gives `1`. -/
lemma score_ai_nlp :
    GeminiAPI.calculate_match_score ["ai", "nlp"] ["machine learning"] = 1 := by
  have h1 : clean_terms ["ai", "nlp"] = ["ai", "nlp"] := by decide
  have h2 : GeminiAPI.match_set ["ai", "nlp"] ["machine learning"] = {"ai", "nlp"} := by decide
  have hai : GeminiAPI.bonus_of "ai" = 1/10 := rfl
  have hnlp : GeminiAPI.bonus_of "nlp" = 0 := rfl
  have hsum : Finset.sum ({"ai", "nlp"} : Finset String) GeminiAPI.bonus_of = 1/10 := by
    rw [show ({"ai", "nlp"} : Finset String) = insert "ai" {"nlp"} from rfl,
      Finset.sum_insert (by decide), Finset.sum_singleton, hai, hnlp]
    norm_num
  rw [GeminiAPI.calculate_match_score, if_neg (by simp [h1]), h1, h2, hsum]
  have hcard : ({"ai", "nlp"} : Finset String).card = 2 := by decide
  rw [hcard]
  norm_num [min_def]

/-- C5 counterexample: on the spec's scenario input the matched set is
not `{"ai"}` and the final score is not `0.6`. -/
theorem C5_counterexample :
    GeminiAPI.match_set ["ai", "nlp"] ["machine learning"] ≠ {"ai"} ∧
    GeminiAPI.calculate_match_score ["ai", "nlp"] ["machine learning"] ≠ 3/5 :=
  ⟨by decide, by rw [score_ai_nlp]; norm_num⟩

/-- C5 (amended): for `S = ["machine learning"]`, `K = ["ai","nlp"]`, the
expansion of `"machine learning"` contains all ai-category terms
(including `"ai"` and `"nlp"`); the matched set is `{"ai","nlp"}`; the
base score is `2/2 = 1`; the `"ai"` bonus of `0.1` is added and the final
score is clamped to `1.0`. -/
theorem C5_scenario :
    (["ai", "artificial intelligence", "machine learning", "ml", "deep learning",
        "nlp"] : List String).toFinset ⊆
      GeminiAPI.expanded_skills (clean_terms ["machine learning"]) ∧
    GeminiAPI.match_set ["ai", "nlp"] ["machine learning"] = {"ai", "nlp"} ∧
    GeminiAPI.calculate_match_score ["ai", "nlp"] ["machine learning"] = 1 :=
  ⟨by decide, by decide, score_ai_nlp⟩

/-- The score of the C6 scenario on the code: `"python"` expands to all
python-category terms, which include `"flask"`, so two of the three
hackathon keywords match and no bonus applies: `2/3`. -/
lemma score_python_web_flask :
    GeminiAPI.calculate_match_score ["python", "web", "flask"] ["python"] = 2/3 := by
  have h1 : clean_terms ["python", "web", "flask"] = ["python", "web", "flask"] := by decide
  have h2 : GeminiAPI.match_set ["python", "web", "flask"] ["python"] = {"python", "flask"} := by
    decide
  have hsum : Finset.sum ({"python", "flask"} : Finset String) GeminiAPI.bonus_of = 0 := by
    rw [show ({"python", "flask"} : Finset String) = insert "python" {"flask"} from rfl,
      Finset.sum_insert (by decide), Finset.sum_singleton,
      show GeminiAPI.bonus_of "python" = 0 from rfl,
      show GeminiAPI.bonus_of "flask" = 0 from rfl]
    norm_num
  rw [GeminiAPI.calculate_match_score, if_neg (by simp [h1]), h1, h2, hsum]
  have hcard : ({"python", "flask"} : Finset String).card = 2 := by decide
  rw [hcard]
  norm_num [min_def]

/-- C6 counterexample: on the spec's scenario input the matched set is
not `{"python"}` and the final score is not `1/3 ≈ 0.33`. -/
theorem C6_counterexample :
    GeminiAPI.match_set ["python", "web", "flask"] ["python"] ≠ {"python"} ∧
    GeminiAPI.calculate_match_score ["python", "web", "flask"] ["python"] ≠ 1/3 :=
  ⟨by decide, by rw [score_python_web_flask]; norm_num⟩

/-- C6 (amended): for `K = ["python","web","flask"]`, `S = ["python"]`,
the expanded skills include all python-category terms; the matched set
is `{"python","flask"}` (`"flask"` is a python-category term); the base
score is `2/3`; no bonus category is matched, so the final score is
`2/3 ≈ 0.67`. -/
theorem C6_scenario :
    (["python", "django", "flask", "fastapi", "pytorch", "tensorflow", "pandas",
        "numpy"] : List String).toFinset ⊆
      GeminiAPI.expanded_skills (clean_terms ["python"]) ∧
    GeminiAPI.match_set ["python", "web", "flask"] ["python"] = {"python", "flask"} ∧
    GeminiAPI.calculate_match_score ["python", "web", "flask"] ["python"] = 2/3 :=
  ⟨by decide, by decide, score_python_web_flask⟩

/-- C7 witness. -/
theorem C7_monotone_witness :
    "python" ∈ ["python"] ∧
      GeminiAPI.calculate_match_score ["python"] [] ≤
        GeminiAPI.calculate_match_score ["python"] ([] ++ ["python"]) :=
  ⟨by decide, C7_monotone ["python"] [] "python" (by decide)⟩

/-! Generic lemmas about Python's stable descending sort-by-key,
modelled as `mergeSort` with the comparator `key b ≤ key a`. -/

section SortHelpers

variable {α : Type} (key : α → ℚ)

lemma keyDesc_trans : ∀ (a b c : α), decide (key b ≤ key a) = true →
    decide (key c ≤ key b) = true → decide (key c ≤ key a) = true := by
  intro a b c hab hbc
  simp only [decide_eq_true_eq] at *
  exact le_trans hbc hab

lemma keyDesc_total : ∀ (a b : α),
    (decide (key b ≤ key a) || decide (key a ≤ key b)) = true := by
  intro a b
  simp only [Bool.or_eq_true, decide_eq_true_eq]
  exact le_total _ _

lemma pairwise_sortKeyDesc (l : List α) :
    (l.mergeSort fun a b => decide (key b ≤ key a)).Pairwise fun a b =>
      key b ≤ key a := by
  have h := List.sorted_mergeSort (keyDesc_trans key) (keyDesc_total key) l
  exact h.imp fun hab => by simpa using hab

/-- Stability of the descending sort, phrased on ties: the subsequence of
elements whose key equals any fixed `q` is unchanged by the sort. -/
lemma filter_sortKeyDesc (l : List α) (q : ℚ) :
    ((l.mergeSort fun a b => decide (key b ≤ key a)).filter fun a =>
      decide (key a = q)) = l.filter fun a => decide (key a = q) := by
  have hpw : (l.filter fun a => decide (key a = q)).Pairwise
      (fun a b => (decide (key b ≤ key a)) = true) := by
    apply List.pairwise_of_forall_mem_list
    intro a ha b hb
    have ha' : key a = q := by simpa using List.of_mem_filter ha
    have hb' : key b = q := by simpa using List.of_mem_filter hb
    simp [ha', hb']
  have hsub : List.Sublist (l.filter fun a => decide (key a = q))
      (l.mergeSort fun a b => decide (key b ≤ key a)) :=
    List.sublist_mergeSort (keyDesc_trans key) (keyDesc_total key) hpw
      (List.filter_sublist l)
  have hperm : ((l.mergeSort fun a b => decide (key b ≤ key a)).filter fun a =>
      decide (key a = q)).Perm (l.filter fun a => decide (key a = q)) :=
    (List.mergeSort_perm l _).filter _
  have h2 : List.Sublist (l.filter fun a => decide (key a = q))
      ((l.mergeSort fun a b => decide (key b ≤ key a)).filter fun a =>
        decide (key a = q)) := by
    have h3 := hsub.filter fun a => decide (key a = q)
    rwa [List.filter_filter, show (fun a => decide (key a = q) && decide (key a = q)) =
      fun a => decide (key a = q) from funext fun a => Bool.and_self _] at h3
  exact (h2.eq_of_length hperm.length_eq.symm).symm

end SortHelpers

/-! Lemmas about the SBERT batch pipeline. -/

namespace SBERTModel

lemma sanitize_rat_idem (q : ℚ) : sanitize_rat (sanitize_rat q) = sanitize_rat q := by
  unfold sanitize_rat
  rw [div_mul_cancel₀ _ (by norm_num : (10000 : ℚ) ≠ 0), round_intCast]

lemma deep_sanitize_result (sims : List ℚ) (hsp : Hackathon × ℚ) :
    deep_sanitize (result_of sims hsp) = result_of sims hsp := by
  unfold deep_sanitize result_of
  simp [sanitize_rat_idem]

lemma analyze_core_ok (hs : List Hackathon) (sims : List ℚ) (h : ¬ sims = []) :
    analyze_core hs sims = Except.ok
      (((hs.zip sims).map (result_of sims)).mergeSort
        fun a b => decide (b.similarity ≤ a.similarity)) := by
  rw [analyze_core, if_neg h]
  congr 1
  have hid : ∀ r ∈ (((hs.zip sims).map (result_of sims)).mergeSort
      fun a b => decide (b.similarity ≤ a.similarity)), deep_sanitize r = r := by
    intro r hr
    obtain ⟨p, _, rfl⟩ := List.mem_map.1 (List.mem_mergeSort.1 hr)
    exact deep_sanitize_result sims p
  rw [List.map_congr_left hid]
  simp

lemma analyze_core_getD_length (hs : List Hackathon) (sims : List ℚ) :
    ((analyze_core hs sims).toOption.getD []).length = min hs.length sims.length := by
  by_cases h : sims = []
  · subst h
    simp [analyze_core, Except.toOption]
  · rw [analyze_core_ok hs sims h]
    simp [Except.toOption, List.length_mergeSort, List.length_zip]

lemma analyze_core_sorted (hs : List Hackathon) (sims : List ℚ) :
    ((analyze_core hs sims).toOption.getD []).Pairwise fun a b =>
      b.similarity ≤ a.similarity := by
  by_cases h : sims = []
  · subst h
    simp [analyze_core, Except.toOption]
  · rw [analyze_core_ok hs sims h]
    exact pairwise_sortKeyDesc (fun r : SbertResult => r.similarity) _

lemma analyze_core_metrics (hs : List Hackathon) (sims : List ℚ) :
    ∀ r ∈ (analyze_core hs sims).toOption.getD [],
      r.evaluation_metrics.precision = sanitize_rat (batch_precision sims) ∧
      r.evaluation_metrics.recall_score = sanitize_rat (batch_recall sims) ∧
      r.evaluation_metrics.f1_score = sanitize_rat (batch_f1 sims) ∧
      r.evaluation_metrics.accuracy = sanitize_rat (batch_accuracy sims) := by
  intro r hr
  by_cases h : sims = []
  · subst h
    simp [analyze_core, Except.toOption] at hr
  · rw [analyze_core_ok hs sims h] at hr
    simp only [Except.toOption, Option.getD] at hr
    obtain ⟨p, _, rfl⟩ := List.mem_map.1 (List.mem_mergeSort.1 hr)
    exact ⟨rfl, rfl, rfl, rfl⟩

end SBERTModel

/-- C4 counterexample: the lexical recommendation operation, called with
an empty hackathon batch, returns an empty list as a normal success — it
does not raise or report an input error. -/
theorem C4_counterexample :
    GeminiAPI.analyze_hackathons (fun _ => none) [] ["python"] = [] := by
  unfold GeminiAPI.analyze_hackathons
  simp

/-- C4 (amended): on an empty batch the embedding-based variant raises
(`ValueError`, modelled as `Except.error`), while the lexical variant
returns an empty list successfully; only the former reports an input
error distinct from an empty success. -/
theorem C4_empty_batch (us : List String) (encode : String → List ℝ)
    (tagger : String → Option GeminiAPI.TagDoc) :
    SBERTModel.analyze_hackathons encode [] us =
      Except.error "No valid similarities could be computed." ∧
    GeminiAPI.analyze_hackathons tagger [] us = [] := by
  refine ⟨rfl, ?_⟩
  unfold GeminiAPI.analyze_hackathons
  simp

/-- C8: if processing a single hackathon fails (its `try` body yields
`none`), that hackathon is skipped and the batch result is exactly the
result of the batch without it — a single-item failure never aborts the
whole batch. -/
theorem C8_item_isolation (tagger : String → Option GeminiAPI.TagDoc)
    (us : List String) (l1 l2 : List Hackathon) (h : Hackathon)
    (hfail : GeminiAPI.process_hackathon tagger us h = none) :
    GeminiAPI.analyze_hackathons tagger (l1 ++ h :: l2) us =
      GeminiAPI.analyze_hackathons tagger (l1 ++ l2) us := by
  unfold GeminiAPI.analyze_hackathons
  rw [List.filterMap_append, List.filterMap_append, List.filterMap_cons_none hfail]

/-- C8 witness: a record with no `full_text` key fails item processing
and is skipped. -/
theorem C8_item_isolation_witness :
    GeminiAPI.process_hackathon (fun _ => some ⟨[], []⟩) ["python"]
      ⟨none, none, none, [], none, none, none, []⟩ = none ∧
    GeminiAPI.analyze_hackathons (fun _ => some ⟨[], []⟩)
        ([] ++ (⟨none, none, none, [], none, none, none, []⟩ : Hackathon) :: []) ["python"] =
      GeminiAPI.analyze_hackathons (fun _ => some ⟨[], []⟩) ([] ++ []) ["python"] :=
  ⟨rfl, C8_item_isolation _ _ _ _ _ rfl⟩

/-- C3 counterexample: the embedding-based recommendation operation does
not truncate to 5 — on a batch of 6 hackathons it returns 6 results. -/
theorem C3_counterexample :
    ¬ (((SBERTModel.analyze_hackathons (fun _ => [])
        (List.replicate 6 (⟨some "t", some "d", none, [], none, none, none, []⟩ : Hackathon))
        ["python"]).toOption.getD []).length ≤ 5) := by
  have hlen : ((SBERTModel.analyze_hackathons (fun _ => [])
      (List.replicate 6 (⟨some "t", some "d", none, [], none, none, none, []⟩ : Hackathon))
      ["python"]).toOption.getD []).length = 6 := by
    unfold SBERTModel.analyze_hackathons
    rw [SBERTModel.analyze_core_getD_length]
    simp [SBERTModel.similarities]
  omega

/-- C3 (amended): the lexical variant's output is stably sorted
descending by match score and has length at most 5 (ties keep the order
of the processed input, stated as: for every score value `q`, the
results with score `q` form a sublist of the processed list in its
original order).  The embedding-based variant's output is likewise
sorted descending by its score (the cosine similarity), but it is not
truncated: it has one result per input hackathon. -/
theorem C3_ranking (tagger : String → Option GeminiAPI.TagDoc)
    (hackathons : List Hackathon) (us : List String)
    (encode : String → List ℝ) (shs : List Hackathon) (sus : List String) :
    ((GeminiAPI.analyze_hackathons tagger hackathons us).Pairwise fun a b =>
      b.match_score ≤ a.match_score) ∧
    (GeminiAPI.analyze_hackathons tagger hackathons us).length ≤ 5 ∧
    (∀ q : ℚ, List.Sublist
      ((GeminiAPI.analyze_hackathons tagger hackathons us).filter fun r =>
        decide (r.match_score = q))
      ((hackathons.filterMap (GeminiAPI.process_hackathon tagger us)).filter fun r =>
        decide (r.match_score = q))) ∧
    (((SBERTModel.analyze_hackathons encode shs sus).toOption.getD []).Pairwise fun a b =>
      b.similarity ≤ a.similarity) ∧
    ((SBERTModel.analyze_hackathons encode shs sus).toOption.getD []).length = shs.length := by
  refine ⟨?_, ?_, ?_, ?_, ?_⟩
  · unfold GeminiAPI.analyze_hackathons
    exact List.Pairwise.sublist (List.take_sublist 5 _)
      (pairwise_sortKeyDesc (fun r : GeminiAPI.Recommendation => r.match_score) _)
  · unfold GeminiAPI.analyze_hackathons
    rw [List.length_take]
    exact min_le_left _ _
  · intro q
    unfold GeminiAPI.analyze_hackathons
    have h1 := (List.take_sublist 5
      ((hackathons.filterMap (GeminiAPI.process_hackathon tagger us)).mergeSort
        fun a b => decide (b.match_score ≤ a.match_score))).filter
      fun r => decide (r.match_score = q)
    rwa [filter_sortKeyDesc (fun r : GeminiAPI.Recommendation => r.match_score)] at h1
  · unfold SBERTModel.analyze_hackathons
    exact SBERTModel.analyze_core_sorted _ _
  · unfold SBERTModel.analyze_hackathons
    rw [SBERTModel.analyze_core_getD_length]
    simp [SBERTModel.similarities]

/-- C10: in the embedding-based variant, all results of one batch carry
the same batch-level precision, recall, F1 and accuracy values in their
`evaluation_metrics` (they are computed once from the synthetic
half-split labels over the whole batch). -/
theorem C10_batch_metrics (encode : String → List ℝ) (hs : List Hackathon)
    (us : List String) :
    ((SBERTModel.analyze_hackathons encode hs us).toOption.getD []).Pairwise fun a b =>
      a.evaluation_metrics.precision = b.evaluation_metrics.precision ∧
      a.evaluation_metrics.recall_score = b.evaluation_metrics.recall_score ∧
      a.evaluation_metrics.f1_score = b.evaluation_metrics.f1_score ∧
      a.evaluation_metrics.accuracy = b.evaluation_metrics.accuracy := by
  unfold SBERTModel.analyze_hackathons
  apply List.pairwise_of_forall_mem_list
  intro a ha b hb
  have h1 := SBERTModel.analyze_core_metrics hs (SBERTModel.similarities encode hs us) a ha
  have h2 := SBERTModel.analyze_core_metrics hs (SBERTModel.similarities encode hs us) b hb
  exact ⟨h1.1.trans h2.1.symm, h1.2.1.trans h2.2.1.symm,
    h1.2.2.1.trans h2.2.2.1.symm, h1.2.2.2.trans h2.2.2.2.symm⟩

/-- C9 counterexample: a failure of the tagging pass propagates out of
`extract_keywords` (there is no exception handling in it), instead of
degrading to taxonomy-only matches. -/
theorem C9_counterexample :
    GeminiAPI.extract_keywords (fun _ => none) "machine learning" = none := rfl

/-- C9 (amended): on empty text, with the tagger succeeding on the empty
string (as spaCy does, returning an empty document), `extract_keywords`
returns an empty list; but when the tagging pass fails, the failure
propagates — the result is not degraded to taxonomy-only matches. -/
theorem C9_extract_behavior (tagger : String → Option GeminiAPI.TagDoc) (text : String) :
    (tagger (lowerStr "") = some ⟨[], []⟩ →
      GeminiAPI.extract_keywords tagger "" = some []) ∧
    (tagger (lowerStr text) = none →
      GeminiAPI.extract_keywords tagger text = none) := by
  constructor
  · intro h
    unfold GeminiAPI.extract_keywords
    rw [h]
    rfl
  · intro h
    unfold GeminiAPI.extract_keywords
    rw [h]

/-- C9 witness. -/
theorem C9_extract_behavior_witness :
    GeminiAPI.extract_keywords (fun _ => some ⟨[], []⟩) "" = some [] ∧
    GeminiAPI.extract_keywords (fun _ => none) "x" = none :=
  ⟨(C9_extract_behavior (fun _ => some ⟨[], []⟩) "x").1 rfl,
   (C9_extract_behavior (fun _ => none) "x").2 rfl⟩
